import Mathlib

/-!
# Verification of the Binder IPC core (Rust Android binder driver)

This file shallowly embeds the data model and operations of the binder
driver found in `drivers/android/{node,process,transaction,context}.rs`
and proves properties of them.  Pure state updates are modelled as Lean
functions over explicit state records; fallible operations return
`Except Errno`; the intrusive work lists are modelled as Lean lists
holding transaction identifiers.
-/

namespace Binder

/-- Stand-ins for the `BR_*` return opcodes from `defs.rs`.  The canonical
ABI values are irrelevant to the properties proved here; only distinctness
and identity of the opcodes matter, so small distinct naturals are used. -/
def BR_ERROR : Nat := 0

def BR_OK : Nat := 1

def BR_TRANSACTION : Nat := 2

def BR_REPLY : Nat := 3

def BR_TRANSACTION_SEC_CTX : Nat := 4

def BR_INCREFS : Nat := 5

def BR_ACQUIRE : Nat := 6

def BR_RELEASE : Nat := 7

def BR_DECREFS : Nat := 8

def BR_DEAD_BINDER : Nat := 9

def BR_CLEAR_DEATH_NOTIFICATION_DONE : Nat := 10

/-- Error values surfaced by the core (`EBUSY`, `EPERM`, ... and the
`BinderError` kinds `Dead`/`Failed`). -/
inductive Errno where
  | BUSY
  | PERM
  | EINVAL
  | ENOMEM
  | ESRCH
  | ENOENT
  | Dead
  | Failed
  | SecurityDenied
  deriving DecidableEq, Repr

/-- `CountState` from `node.rs`: one of the two (strong/weak) per-node
refcount states.  `count` is the number of references held against the
node; `has_count` records whether userspace currently holds the
corresponding `INCREFS`/`ACQUIRE`. -/
structure CountState where
  count : Nat
  has_count : Bool
  deriving DecidableEq, Repr

/-- `CountState::new`. -/
def CountState.new : CountState := { count := 0, has_count := false }

/-- `NodeInner` from `node.rs` (the state guarded by the owner process's
inner lock).  The `death_list` of subscribers is modelled where needed on
the `NodeDeath` side (as list membership); `oneway_todo` holds transaction
identifiers. -/
structure NodeInner where
  strong : CountState
  weak : CountState
  oneway_todo : List Nat
  has_pending_oneway_todo : Bool
  active_inc_refs : Nat
  deriving DecidableEq, Repr

/-- The `NodeInner` value built by `Node::new`. -/
def NodeInner.new : NodeInner :=
  { strong := CountState.new
    weak := CountState.new
    oneway_todo := []
    has_pending_oneway_todo := false
    active_inc_refs := 0 }

/-- `Node::update_refcount_locked(inc, strong, count)` from `node.rs`.
Updates the selected `CountState` and returns the updated inner state
together with the "needs to push work" boolean.  On a decrement that
would underflow, the count is left untouched and `false` is returned. -/
def updateRefcountLocked (inc : Bool) (strong : Bool) (count : Nat)
    (inner : NodeInner) : NodeInner × Bool :=
  let state := if strong then inner.strong else inner.weak
  let (state', push) :=
    if inc then
      ({ state with count := state.count + count }, !state.has_count)
    else
      if state.count < count then
        (state, false)
      else
        let c := state.count - count
        ({ state with count := c }, decide (c = 0) && state.has_count)
  if strong then
    ({ inner with strong := state' }, push)
  else
    ({ inner with weak := state' }, push)

/-- `Node::force_has_count` from `node.rs`: marks both count states as
already delivered to userspace ("prevent the delivery of
acquire/increfs", used for the context-manager node). -/
def forceHasCount (inner : NodeInner) : NodeInner :=
  { inner with
    strong := { inner.strong with has_count := true }
    weak := { inner.weak with has_count := true } }

/-- The four sequential writes at the end of
`<Node as DeliverToRead>::do_work`: `BR_INCREFS` when an increfs was
scheduled, `BR_ACQUIRE` when an acquire was scheduled, then `BR_RELEASE`
and `BR_DECREFS` for the drops. -/
def emitCmds (incref acquire release decref : Bool) : List Nat :=
  (if incref then [BR_INCREFS] else []) ++
  (if acquire then [BR_ACQUIRE] else []) ++
  (if release then [BR_RELEASE] else []) ++
  (if decref then [BR_DECREFS] else [])

/-- Result of delivering a queued `Node` work item. -/
structure NodeDoWorkResult where
  inner : NodeInner
  /-- The `BR_*` commands written to the reader, in emission order. -/
  cmds : List Nat
  /-- Whether the node was removed from the owner's node table. -/
  removed : Bool
  deriving DecidableEq, Repr

/-- `<Node as DeliverToRead>::do_work` from `node.rs`: recompute the
current state under the owner's inner lock, toggle `has_count` and
`active_inc_refs` as needed, then emit the refcount commands. -/
def nodeDoWork (inner : NodeInner) : NodeDoWorkResult :=
  let strong := decide (inner.strong.count > 0)
  let has_strong := inner.strong.has_count
  let weak := strong || decide (inner.weak.count > 0)
  let has_weak := inner.weak.has_count
  let inner :=
    if weak && !has_weak then
      { inner with
        weak := { inner.weak with has_count := true }
        active_inc_refs := inner.active_inc_refs + 1 }
    else inner
  let inner :=
    if strong && !has_strong then
      { inner with
        strong := { inner.strong with has_count := true }
        active_inc_refs := inner.active_inc_refs + 1 }
    else inner
  let no_active_inc_refs := decide (inner.active_inc_refs = 0)
  let should_drop_weak := no_active_inc_refs && (!weak && has_weak)
  let should_drop_strong := no_active_inc_refs && (!strong && has_strong)
  let inner :=
    if should_drop_weak then
      { inner with weak := { inner.weak with has_count := false } }
    else inner
  let inner :=
    if should_drop_strong then
      { inner with strong := { inner.strong with has_count := false } }
    else inner
  let removed := no_active_inc_refs && !weak
  { inner := inner
    cmds := emitCmds (weak && !has_weak) (strong && !has_strong)
      should_drop_strong should_drop_weak
    removed := removed }

/-! ## Oneway submission (`Node::submit_oneway` / `Node::pending_oneway_finished`) -/

/-- The owner process state relevant to oneway submission: the dead flag and
the work queue of `ProcessInner`, the node's inner state, plus the list of
transactions cancelled while draining a dead process's oneway queue.
`work` records the order in which work items were handed to the owner
process (`ProcessInner::push_work` either hands the item to a ready thread
or appends it to the process work queue; both preserve this order). -/
structure OnewayProc where
  is_dead : Bool
  work : List Nat
  node : NodeInner
  cancelled : List Nat
  deriving DecidableEq, Repr

/-- The initial state: live process, empty queues, fresh node. -/
def OnewayProc.init : OnewayProc :=
  { is_dead := false, work := [], node := NodeInner.new, cancelled := [] }

/-- `ProcessInner::push_work`: fails with the Dead error when the process is
dead, otherwise enqueues the work item. -/
def pushWork (t : Nat) (p : OnewayProc) : OnewayProc × Except Errno Unit :=
  if p.is_dead then (p, .error .Dead)
  else ({ p with work := p.work ++ [t] }, .ok ())

/-- `Node::submit_oneway` from `node.rs`: under the owner's inner lock, if
`has_pending_oneway_todo` append to the node's queue; otherwise set the
flag and push the transaction onto the owner process. -/
def submitOneway (t : Nat) (p : OnewayProc) : OnewayProc × Except Errno Unit :=
  if p.node.has_pending_oneway_todo then
    ({ p with node := { p.node with oneway_todo := p.node.oneway_todo ++ [t] } }, .ok ())
  else
    let p := { p with node := { p.node with has_pending_oneway_todo := true } }
    pushWork t p

/-- `Node::pending_oneway_finished` from `node.rs`: if the owner is alive,
pop the next queued oneway and push it to the owner process (clearing the
flag when the queue is empty); if the owner is dead (or the push fails,
which only happens when the owner is dead), drain the queue and cancel
every queued transaction. -/
def pendingOnewayFinished (p : OnewayProc) : OnewayProc :=
  if p.is_dead then
    { p with
      node := { p.node with oneway_todo := [], has_pending_oneway_todo := false }
      cancelled := p.cancelled ++ p.node.oneway_todo }
  else
    match p.node.oneway_todo with
    | [] => { p with node := { p.node with has_pending_oneway_todo := false } }
    | t :: rest =>
      -- the push succeeds because the process is not dead
      { p with
        node := { p.node with oneway_todo := rest, has_pending_oneway_todo := true }
        work := p.work ++ [t] }

/-- An event in a oneway run: a sender submitting a transaction to the node,
or the recipient freeing the delivered buffer (which triggers
`pending_oneway_finished`). -/
inductive OnewayEvent where
  | submit (t : Nat)
  | finish
  deriving DecidableEq, Repr

/-- One step of a oneway run. -/
def onewayStep (p : OnewayProc) : OnewayEvent → OnewayProc
  | .submit t => (submitOneway t p).1
  | .finish => pendingOnewayFinished p

/-- Run a sequence of events from the initial state. -/
def onewayRun (evs : List OnewayEvent) : OnewayProc :=
  evs.foldl onewayStep OnewayProc.init

/-- The transactions submitted during a run, in submission order. -/
def submittedOf : List OnewayEvent → List Nat
  | [] => []
  | .submit t :: evs => t :: submittedOf evs
  | .finish :: evs => submittedOf evs

/-! ## `NodeDeath` (`node.rs`) -/

/-- `NodeDeathInner` from `node.rs`. -/
structure NodeDeathInner where
  dead : Bool
  cleared : Bool
  notification_done : Bool
  aborted : Bool
  deriving DecidableEq, Repr

/-- One death subscription.  Membership of the subscription in the target
node's intrusive `death_list` is modelled by a membership flag. -/
structure DeathState where
  inner : NodeDeathInner
  in_death_list : Bool
  deriving DecidableEq, Repr

/-- A freshly registered subscription: all flags false
(`NodeDeath::new`), linked into the node's death list
(`Node::add_death`). -/
def DeathState.init : DeathState :=
  { inner := { dead := false, cleared := false, notification_done := false, aborted := false }
    in_death_list := true }

/-- `NodeDeath::set_cleared(abort)` from `node.rs`: set `cleared`; if
`abort` also set `aborted`; compute `needs_removal = !dead` and
`needs_queueing = !dead || notification_done`; remove the subscription
from the node's death list when `needs_removal`; return
`needs_queueing`. -/
def setCleared (abort : Bool) (s : DeathState) : DeathState × Bool :=
  let inner :=
    { s.inner with
      cleared := true
      aborted := if abort then true else s.inner.aborted }
  let needs_removal := !inner.dead
  let needs_queueing := !inner.dead || inner.notification_done
  let s' :=
    { s with
      inner := inner
      in_death_list := if needs_removal then false else s.in_death_list }
  (s', needs_queueing)

/-! ## Context manager (`context.rs`) -/

/-- The userspace-visible and node-level counters of a `NodeRef`
(`node.rs`).  `gid` is the referenced node's `global_id` and `owner` the
identifier of the process owning the node. -/
structure NodeRefM where
  gid : Nat
  owner : Nat
  strong_node_count : Nat
  weak_node_count : Nat
  strong_count : Nat
  weak_count : Nat
  deriving DecidableEq, Repr

/-- `NodeRef::new(node, strong_count, weak_count)`. -/
def NodeRefM.new (gid owner strong_count weak_count : Nat) : NodeRefM :=
  { gid := gid, owner := owner
    strong_node_count := strong_count, weak_node_count := weak_count
    strong_count := strong_count, weak_count := weak_count }

/-- `NodeRef::absorb`: sums both pairs of counters into `self` (the
absorbed ref is zeroed so that dropping it is a no-op). -/
def NodeRefM.absorb (a b : NodeRefM) : NodeRefM :=
  { a with
    strong_node_count := a.strong_node_count + b.strong_node_count
    weak_node_count := a.weak_node_count + b.weak_node_count
    strong_count := a.strong_count + b.strong_count
    weak_count := a.weak_count + b.weak_count }

/-- `NodeRef::clone(strong)`: fails when a strong clone is requested but
`strong_count` is zero; otherwise produces the `NodeRef` built by
`ProcessInner::new_node_ref` (a fresh ref with a single strong or weak
count against the same node). -/
def NodeRefM.clone (nr : NodeRefM) (strong : Bool) : Except Errno NodeRefM :=
  if strong && decide (nr.strong_count = 0) then .error .Failed
  else
    let sc := if strong then 1 else 0
    .ok (NodeRefM.new nr.gid nr.owner sc (1 - sc))

/-- The `Manager` state of a `Context` (`context.rs`): the optional
manager `NodeRef` and the recorded euid. -/
structure ManagerState where
  node : Option NodeRefM
  uid : Option Nat
  deriving DecidableEq, Repr

/-- `Context::set_manager_node` from `context.rs`.  `sec` is the result of
the `security::binder_set_context_mgr` hook (an external collaborator),
`caller_uid` the caller's current euid. -/
def setManagerNode (sec : Except Errno Unit) (caller_uid : Nat) (nr : NodeRefM)
    (m : ManagerState) : ManagerState × Except Errno Unit :=
  if m.node.isSome then (m, .error .BUSY)
  else
    match sec with
    | .error e => (m, .error e)
    | .ok () =>
      match m.uid with
      | some uid =>
        if uid ≠ caller_uid then (m, .error .PERM)
        else ({ node := some nr, uid := some caller_uid }, .ok ())
      | none => ({ node := some nr, uid := some caller_uid }, .ok ())

/-! ## Transaction submission (`transaction.rs`) -/

/-- `TF_ONE_WAY` transaction flag (canonical value). -/
def TF_ONE_WAY : Nat := 1

/-- A frame of the sender's transaction stack chain: the thread and the
process the transaction at that frame originated from (`Transaction.from`
and `from.process`). -/
structure TxnFrame where
  from_thread : Nat
  from_proc : Nat
  deriving DecidableEq, Repr

/-- The fields of `Transaction` relevant to submission: the target node
(absent for replies), the `stack_next` chain (innermost frame first), the
recipient process and the flags word. -/
structure Txn where
  target_node : Option Nat
  stack_next : List TxnFrame
  to_proc : Nat
  flags : Nat
  deriving DecidableEq, Repr

/-- `self.flags & TF_ONE_WAY != 0`. -/
def Txn.oneway (t : Txn) : Bool := decide (Nat.land t.flags TF_ONE_WAY ≠ 0)

/-- The walk of `Transaction::find_target_thread` over the `stack_next`
chain. -/
def findTargetThreadAux (to_proc : Nat) : List TxnFrame → Option Nat
  | [] => none
  | f :: fs =>
    if f.from_proc = to_proc then some f.from_thread
    else findTargetThreadAux to_proc fs

/-- `Transaction::find_target_thread` from `transaction.rs`: the first
frame on the sender's transaction stack whose originating process is the
recipient process. -/
def findTargetThread (t : Txn) : Option Nat :=
  findTargetThreadAux t.to_proc t.stack_next

/-- Where `Transaction::submit` routed the transaction. -/
inductive SubmitDest where
  /-- delegated to the target node's oneway submission (`submit_oneway`) -/
  | onewayNode (gid : Nat)
  /-- pushed onto the work queue of a specific thread found on the
  transaction stack (thread donation) -/
  | donatedThread (tid : Nat)
  /-- handed directly to a ready thread of the recipient process -/
  | readyThread (tid : Nat)
  /-- pushed onto the recipient process's work queue -/
  | procQueue
  deriving DecidableEq, Repr

/-- The non-oneway tail of `Transaction::submit` together with
`ProcessInner::push_new_transaction` (`process.rs`): donate to a thread
found on the stack, else hand to the first ready thread, else push onto
the process work queue (failing with Dead when the recipient process is
dead and has no ready thread).  `Thread::push_work` lives in `thread.rs`,
which is outside the covered sources; it is modelled from the spec as
delivering the work to the thread. -/
def txnSubmitSync (t : Txn) (ready : List Nat) (to_dead : Bool) :
    Except Errno SubmitDest :=
  match findTargetThread t with
  | some tid => .ok (.donatedThread tid)
  | none =>
    match ready with
    | tid :: _ => .ok (.readyThread tid)
    | [] => if to_dead then .error .Dead else .ok .procQueue

/-- `Transaction::submit` from `transaction.rs`.  A oneway transaction
with a target node is delegated to that node's oneway submission; a
oneway transaction without a target node logs an error and falls through
to the synchronous path (which the constructor makes unreachable: oneway
transactions always carry a target node). -/
def txnSubmit (t : Txn) (ready : List Nat) (to_dead : Bool) :
    Except Errno SubmitDest :=
  if t.oneway then
    match t.target_node with
    | some gid => .ok (.onewayNode gid)
    | none => txnSubmitSync t ready to_dead
  else txnSubmitSync t ready to_dead

/-! ## Handle tables (`process.rs`) -/

/-- `NodeRefInfo` from `process.rs`: a handle-table entry, the `NodeRef`
plus an optional death-notification subscription (recorded here by its
cookie). -/
structure NodeRefInfo where
  node_ref : NodeRefM
  death : Option Nat
  deriving DecidableEq, Repr

/-- `ProcessNodeRefs` from `process.rs`: `by_handle` is the
handle-indexed red-black tree, modelled as an association list sorted by
handle (the tree's iteration order); `by_global_id` maps a node's
`global_id` to its handle. -/
structure ProcessNodeRefs where
  by_handle : List (Nat × NodeRefInfo)
  by_global_id : List (Nat × Nat)
  deriving DecidableEq, Repr

/-- The empty tables (`ProcessNodeRefs::new`). -/
def ProcessNodeRefs.empty : ProcessNodeRefs :=
  { by_handle := [], by_global_id := [] }

/-- `u32::MAX`: `checked_add(1)` on a `u32` overflows exactly here. -/
def u32Max : Nat := 2 ^ 32 - 1

/-- The handle-allocation scan of `Process::insert_or_update_handle`: walk
the handle keys in ascending order; break at the first key above the
candidate; bump the candidate past every key equal to it, failing with
`ENOMEM` when the bump would overflow `u32`. -/
def findHandle : List Nat → Nat → Except Errno Nat
  | [], target => .ok target
  | k :: ks, target =>
    if k > target then .ok target
    else if k = target then
      if target = u32Max then .error .ENOMEM
      else findHandle ks (target + 1)
    else findHandle ks target

/-- Apply `f` to the entry with key `h` of an association list (the
`get_mut` update on the red-black tree). -/
def updateByHandle (h : Nat) (f : NodeRefInfo → NodeRefInfo) :
    List (Nat × NodeRefInfo) → List (Nat × NodeRefInfo)
  | [] => []
  | (k, info) :: rest =>
    if k = h then (k, f info) :: rest else (k, info) :: updateByHandle h f rest

/-- Key-ordered insertion (the red-black tree insert). -/
def insertSorted (k : Nat) (v : NodeRefInfo) :
    List (Nat × NodeRefInfo) → List (Nat × NodeRefInfo)
  | [] => [(k, v)]
  | (k', v') :: rest =>
    if k < k' then (k, v) :: (k', v') :: rest
    else if k = k' then (k, v) :: rest
    else (k', v') :: insertSorted k v rest

/-- `Process::insert_or_update_handle` from `process.rs`: if the node's
`global_id` is already in the table, absorb the new `NodeRef` into the
existing entry and return the existing handle; otherwise scan for the
lowest unused handle (starting at 0 for the manager, 1 otherwise), fail
with `ESRCH` if the process died, and insert into both tables.  The
lock-drop/re-lookup dance around the tree-node reservation collapses in
this sequential model. -/
def insertOrUpdateHandle (nr : NodeRefM) (is_manager : Bool) (is_dead : Bool)
    (refs : ProcessNodeRefs) : ProcessNodeRefs × Except Errno Nat :=
  match refs.by_global_id.lookup nr.gid with
  | some handle =>
    ({ refs with
       by_handle := updateByHandle handle
         (fun info => { info with node_ref := info.node_ref.absorb nr })
         refs.by_handle },
     .ok handle)
  | none =>
    match findHandle (refs.by_handle.map Prod.fst) (if is_manager then 0 else 1) with
    | .error e => (refs, .error e)
    | .ok target =>
      if is_dead then (refs, .error .ESRCH)
      else
        ({ by_handle := insertSorted target { node_ref := nr, death := none } refs.by_handle
           by_global_id := (nr.gid, target) :: refs.by_global_id },
         .ok target)

/-! ## Death-notification request (`Process::request_death`) -/

/-- The calling thread's return-work slot.  Modelled from the spec: the
single-slot "return work" of a `Thread` surfaces synthetic commands such
as `BR_ERROR` ahead of queued work (`Thread::push_return_work` lives in
`thread.rs`, outside the covered sources). -/
structure ThreadSt where
  return_work : Option Nat
  deriving DecidableEq, Repr

/-- Modelled from the spec: `Thread::push_return_work(code)` stores the
command in the thread's return-work slot. -/
def pushReturnWork (cmd : Nat) (_th : ThreadSt) : ThreadSt :=
  { return_work := some cmd }

/-- Outcome of `Process::request_death`. -/
structure RequestDeathResult where
  refs : ProcessNodeRefs
  thread : ThreadSt
  /-- death pushed straight to the subscriber process (owner already dead) -/
  pushed_to_process : Bool
  /-- death registered on the target node's death list -/
  added_to_node : Bool
  res : Except Errno Unit
  deriving Repr

/-- `Process::request_death` from `process.rs`.  `alloc_ok` is the outcome
of the `UniqueRef::try_new_uninit` allocation for the `NodeDeath` object;
on failure the code schedules `BR_ERROR` on the calling thread's
return-work slot and propagates the no-memory error.  `owner_dead` is
whether the target node's owner process is dead. -/
def requestDeath (alloc_ok : Bool) (handle cookie : Nat) (owner_dead : Bool)
    (refs : ProcessNodeRefs) (th : ThreadSt) : RequestDeathResult :=
  if !alloc_ok then
    { refs := refs, thread := pushReturnWork BR_ERROR th
      pushed_to_process := false, added_to_node := false
      res := .error .ENOMEM }
  else
    match refs.by_handle.lookup handle with
    | none =>
      { refs := refs, thread := th
        pushed_to_process := false, added_to_node := false
        res := .error .EINVAL }
    | some info =>
      if info.death.isSome then
        { refs := refs, thread := th
          pushed_to_process := false, added_to_node := false
          res := .ok () }
      else
        let refs' :=
          { refs with
            by_handle := updateByHandle handle
              (fun i => { i with death := some cookie }) refs.by_handle }
        if owner_dead then
          { refs := refs', thread := th
            pushed_to_process := true, added_to_node := false
            res := .ok () }
        else
          { refs := refs', thread := th
            pushed_to_process := false, added_to_node := true
            res := .ok () }

/-! ## `Process::update_ref` -/

/-- Write the selected pair of counters back into a `NodeRef` (the
mutable borrows `count`/`node_count` of `NodeRef::update`). -/
def writeCounters (nr : NodeRefM) (strong : Bool) (count node_count : Nat) : NodeRefM :=
  if strong then { nr with strong_count := count, strong_node_count := node_count }
  else { nr with weak_count := count, weak_node_count := node_count }

/-- `NodeRef::update(inc, strong)` from `node.rs`: adjust the user-visible
counter; on a 0→1 transition allocate a single node-level contribution,
on 1→0 release the whole outstanding contribution.  Returns whether the
`NodeRef` should be removed (both user-visible counters zero).  The
side-effecting calls into `Node::update_refcount` act on the target node
and are not tracked here. -/
def nodeRefUpdate (inc strong : Bool) (nr : NodeRefM) : NodeRefM × Bool :=
  if strong && decide (nr.strong_count = 0) then (nr, false)
  else
    let count := if strong then nr.strong_count else nr.weak_count
    let node_count := if strong then nr.strong_node_count else nr.weak_node_count
    let other_count := if strong then nr.weak_count else nr.strong_count
    if inc then
      let node_count := if count = 0 then 1 else node_count
      (writeCounters nr strong (count + 1) node_count, false)
    else
      let count := count - 1
      if count = 0 then
        (writeCounters nr strong 0 0, decide (other_count = 0))
      else
        (writeCounters nr strong count node_count, false)

/-- `Context::get_manager_node(strong)` from `context.rs`: clone the
stored manager `NodeRef`, failing with Dead when the slot is empty. -/
def getManagerNode (mgr : Option NodeRefM) (strong : Bool) : Except Errno NodeRefM :=
  match mgr with
  | none => .error .Dead
  | some nr => nr.clone strong

/-- The handle-table tail of `Process::update_ref`: look up the handle,
run `NodeRef::update`, and on removal drop the entry from both tables
(clearing an attached death subscription). -/
def updateRefGeneral (handle : Nat) (inc strong : Bool)
    (refs : ProcessNodeRefs) : ProcessNodeRefs × Except Errno Unit :=
  match refs.by_handle.lookup handle with
  | none => (refs, .ok ())
  | some info =>
    let (nr', remove) := nodeRefUpdate inc strong info.node_ref
    if remove then
      ({ by_handle := refs.by_handle.filter (fun kv => decide (kv.1 ≠ handle))
         by_global_id :=
           refs.by_global_id.filter (fun kv => decide (kv.1 ≠ info.node_ref.gid)) },
       .ok ())
    else
      ({ refs with
         by_handle := updateByHandle handle
           (fun i => { i with node_ref := nr' }) refs.by_handle },
       .ok ())

/-- `Process::update_ref` from `process.rs`.  `self_id` identifies the
calling process, `mgr` the context's manager slot.  An increment on
handle 0 imports the context manager — unless the caller itself owns the
manager node, which fails with `EINVAL`; when no manager is available the
general handle path runs instead. -/
def updateRef (self_id : Nat) (mgr : Option NodeRefM) (handle : Nat)
    (inc strong : Bool) (is_dead : Bool) (refs : ProcessNodeRefs) :
    ProcessNodeRefs × Except Errno Unit :=
  if inc && decide (handle = 0) then
    match getManagerNode mgr strong with
    | .ok nr =>
      if nr.owner = self_id then (refs, .error .EINVAL)
      else
        let (refs', _) := insertOrUpdateHandle nr true is_dead refs
        (refs', .ok ())
    | .error _ => updateRefGeneral handle inc strong refs
  else updateRefGeneral handle inc strong refs

/-! ## Scenario S1 (publish-and-call) -/

/-- The header command written by `<Transaction as DeliverToRead>::do_work`
(`transaction.rs`): `BR_REPLY` for replies, else `BR_TRANSACTION_SEC_CTX`
when a security-context offset is present, else `BR_TRANSACTION`. -/
def txnHeaderCode (target_node : Option Nat) (secctx_off : Option Nat) : Nat :=
  match target_node with
  | none => BR_REPLY
  | some _ => if secctx_off.isSome then BR_TRANSACTION_SEC_CTX else BR_TRANSACTION

/-- Scenario S1, P_A side: P_A exports node N (`Process::get_node` →
`ProcessInner::new_node_ref`, one strong increment, which queues the node
as a work item on P_A's thread) and becomes context manager
(`Process::set_as_manager`, which then forces `has_count` on both count
states of N). -/
def s1ManagerNode : NodeInner :=
  forceHasCount (updateRefcountLocked true true 1 NodeInner.new).1

/-- Scenario S1, after P_B's calls: P_B imports handle 0 (`update_ref` →
`get_manager_node` → `NodeRef::clone` → `new_node_ref`, one more strong
increment) and sends the transaction (`get_transaction_node` →
`get_manager_node`, another strong increment).  Neither increment queues
work because `has_count` is already forced. -/
def s1NodeAtRead : NodeInner :=
  (updateRefcountLocked true true 1
    (updateRefcountLocked true true 1 s1ManagerNode).1).1

/-- Scenario S1: the `BR_*` commands P_A's reader observes: first the
`Node` work item queued when N was created, then P_B's transaction
(non-oneway, no security context). -/
def s1ReadCommands : List Nat :=
  (nodeDoWork s1NodeAtRead).cmds ++ [txnHeaderCode (some 1) none]

/-! ## Spec predicates, invariants and concrete inputs used by the theorems -/

/-- Spec-side predicate for claim C1: the update crosses the 0↔1
boundary that toggles `has_count` — an increment while the 0→1
acquisition has not been emitted to userspace (`has_count = false`), or
a non-underflowing decrement that brings the stored count to zero while
userspace still holds the count (`has_count = true`). -/
def crossesHasCountBoundary (inc : Bool) (count : Nat) (state : CountState) : Prop :=
  if inc then state.has_count = false
  else state.count = count ∧ state.has_count = true

/-- A reachable already-cleared `NodeDeath`: `set_cleared(true)` applied
once to a fresh subscription whose node is alive. -/
def c4AlreadyCleared : DeathState := (setCleared true DeathState.init).1

/-- Invariant of a oneway run over a live owner process: the flag is
clear only when the node's queue is empty, and nothing has been
cancelled. -/
def onewayInv (p : OnewayProc) : Prop :=
  p.is_dead = false ∧
  (p.node.has_pending_oneway_todo = false → p.node.oneway_todo = []) ∧
  p.cancelled = []

/-- A concrete non-oneway transaction to process 9 whose sender's stack
contains a frame from thread 4 of process 9. -/
def c6DonateTxn : Txn :=
  { target_node := some 11, stack_next := [⟨3, 8⟩, ⟨4, 9⟩], to_proc := 9, flags := 0 }

/-- A concrete oneway transaction targeting node 11. -/
def c6OnewayTxn : Txn :=
  { target_node := some 11, stack_next := [], to_proc := 9, flags := 1 }

/-- A concrete table with handles 1 and 2 in use. -/
def c7Refs : ProcessNodeRefs :=
  { by_handle :=
      [(1, { node_ref := NodeRefM.new 100 1 1 0, death := none }),
       (2, { node_ref := NodeRefM.new 200 1 0 1, death := none })]
    by_global_id := [(100, 1), (200, 2)] }

/-- A fresh `NodeRef` to a node not yet in `c7Refs`. -/
def c7NR : NodeRefM := NodeRefM.new 300 1 1 0

/-- The manager `NodeRef` used by the C10 witness: node 50 owned by
process 1, one strong count. -/
def c10Manager : NodeRefM := NodeRefM.new 50 1 1 0

/-! ## Theorems -/

/-- C1: `update_refcount_locked(inc, strong, count)` signals that a work
item must be pushed iff the update crosses the 0↔1 boundary that
toggles `has_count` of the selected count state; and a decrement that
would underflow leaves the state unmodified and signals nothing. -/
theorem claim_C1 (inner : NodeInner) (inc strong : Bool) (count : Nat) :
    ((updateRefcountLocked inc strong count inner).2 = true ↔
      crossesHasCountBoundary inc count (if strong then inner.strong else inner.weak)) ∧
    (inc = false → (if strong then inner.strong else inner.weak).count < count →
      updateRefcountLocked inc strong count inner = (inner, false)) := by
  cases inc <;> cases strong <;>
    simp only [updateRefcountLocked, crossesHasCountBoundary, if_true, if_false,
      Bool.false_eq_true, false_implies, true_implies, Bool.true_eq_false] <;>
    constructor <;>
    first
      | (intro h; split <;> simp_all)
      | (split <;> simp_all <;> intros <;> omega)
      | simp_all

/-- Witness for C1 at a concrete input: decrementing by 2 a strong state
holding 1 underflows, leaves the state unchanged and pushes no work. -/
theorem claim_C1_witness :
    updateRefcountLocked false true 2
        { NodeInner.new with strong := { count := 1, has_count := true } } =
      ({ NodeInner.new with strong := { count := 1, has_count := true } }, false) :=
  (claim_C1 { NodeInner.new with strong := { count := 1, has_count := true } }
      false true 2).2 rfl (by decide)

/-- Counterexample for C2: in scenario S1 the claim asserts P_A receives
`BR_ACQUIRE(N)` before `BR_TRANSACTION`; in fact `set_as_manager` forces
`has_count` on the manager node, so the queued node work item emits no
commands at all and no `BR_ACQUIRE` ever reaches P_A — in particular none
precedes the `BR_TRANSACTION`. -/
theorem claim_C2_counterexample :
    BR_ACQUIRE ∉ s1ReadCommands ∧
    (nodeDoWork s1NodeAtRead).cmds = [] := by
  decide

/-- C2 (amended): in scenario S1, P_A receives the `BR_TRANSACTION`
command with no `BR_ACQUIRE` for N preceding it (or anywhere else in the
read stream): the forced `has_count` of the manager node suppresses the
delivery of acquire/increfs. -/
theorem claim_C2 :
    s1ReadCommands = [BR_TRANSACTION] := by
  decide

/-- Counterexample for C4: on an already-cleared (and aborted, not dead)
`NodeDeath`, a second `set_cleared(true)` leaves the state unchanged but
returns `true` ("needs queueing"), not `false` as claimed:
`set_cleared` returns `!dead || notification_done` regardless of whether
`cleared` was already set. -/
theorem claim_C4_counterexample :
    c4AlreadyCleared.inner.cleared = true ∧
    (setCleared true c4AlreadyCleared).2 = true := by
  decide

/-- C4 (amended): on a `NodeDeath` already cleared by `set_cleared(true)`
(so `cleared` and `aborted` are set, and the subscription was removed
from the node's death list unless the node is dead), a second
`set_cleared(true)` leaves the state unchanged, and returns
`!dead || notification_done` — it requests no queueing only when the node
is dead and the notification is not yet done. -/
theorem claim_C4 (s : DeathState) (h1 : s.inner.cleared = true)
    (h2 : s.inner.aborted = true)
    (h3 : s.inner.dead = false → s.in_death_list = false) :
    (setCleared true s).1 = s ∧
    (setCleared true s).2 = (!s.inner.dead || s.inner.notification_done) := by
  obtain ⟨⟨d, c, n, a⟩, l⟩ := s
  simp only at h1 h2 h3
  subst h1 h2
  cases d <;> simp_all [setCleared]

/-- Witness for C4 at the concrete already-cleared state. -/
theorem claim_C4_witness :
    (setCleared true c4AlreadyCleared).1 = c4AlreadyCleared ∧
    (setCleared true c4AlreadyCleared).2 =
      (!c4AlreadyCleared.inner.dead || c4AlreadyCleared.inner.notification_done) :=
  claim_C4 c4AlreadyCleared (by decide) (by decide) (by decide)

/-- C5: `Context::set_manager_node` fails with `BUSY` whenever a manager
node is already installed (before even consulting the security hook or
the euid); with no manager installed and the security hook approving, it
fails with `PERM` when a previously recorded euid differs from the
caller's; otherwise it records both the `NodeRef` and the caller's
euid. -/
theorem claim_C5 (sec : Except Errno Unit) (u : Nat) (nr : NodeRefM)
    (m : ManagerState) :
    (m.node.isSome = true → setManagerNode sec u nr m = (m, .error .BUSY)) ∧
    (m.node = none → sec = .ok () → ∀ u0, m.uid = some u0 → u0 ≠ u →
      setManagerNode sec u nr m = (m, .error .PERM)) ∧
    (m.node = none → sec = .ok () → (m.uid = none ∨ m.uid = some u) →
      setManagerNode sec u nr m = ({ node := some nr, uid := some u }, .ok ())) := by
  refine ⟨?_, ?_, ?_⟩
  · intro h
    simp [setManagerNode, h]
  · intro hn hs u0 hu hne
    simp [setManagerNode, hn, hs, hu, hne]
  · rintro hn hs (hu | hu) <;> simp [setManagerNode, hn, hs, hu]

/-- Witness for C5 at concrete inputs: installing twice yields `BUSY`;
a second manager with a different euid yields `PERM`. -/
theorem claim_C5_witness :
    setManagerNode (.ok ()) 1000 (NodeRefM.new 7 1 1 0)
        { node := some (NodeRefM.new 3 2 1 0), uid := some 1000 } =
      ({ node := some (NodeRefM.new 3 2 1 0), uid := some 1000 }, .error .BUSY) ∧
    setManagerNode (.ok ()) 1001 (NodeRefM.new 7 1 1 0)
        { node := none, uid := some 1000 } =
      ({ node := none, uid := some 1000 }, .error .PERM) :=
  ⟨(claim_C5 (.ok ()) 1000 (NodeRefM.new 7 1 1 0)
      { node := some (NodeRefM.new 3 2 1 0), uid := some 1000 }).1 rfl,
   (claim_C5 (.ok ()) 1001 (NodeRefM.new 7 1 1 0)
      { node := none, uid := some 1000 }).2.1 rfl rfl 1000 rfl (by decide)⟩

/-- C8: whenever a queued `Node` work item is delivered (`do_work`), the
refcount commands it emits form a subsequence of
`[BR_INCREFS, BR_ACQUIRE, BR_RELEASE, BR_DECREFS]`: acquisitions before
releases, `BR_INCREFS` before `BR_ACQUIRE` and `BR_RELEASE` before
`BR_DECREFS`. -/
theorem claim_C8 (inner : NodeInner) :
    (nodeDoWork inner).cmds.Sublist
      [BR_INCREFS, BR_ACQUIRE, BR_RELEASE, BR_DECREFS] := by
  have helper : ∀ a b c d : Bool,
      (emitCmds a b c d).Sublist [BR_INCREFS, BR_ACQUIRE, BR_RELEASE, BR_DECREFS] := by
    decide
  exact helper _ _ _ _

/-- C9: when the allocation for the `NodeDeath` object of a
`BC_REQUEST_DEATH_NOTIFICATION` fails, `BR_ERROR` is placed in the
calling thread's return-work slot and the operation fails with the
no-memory error, so the reader observes the error in-band. -/
theorem claim_C9 (handle cookie : Nat) (owner_dead : Bool)
    (refs : ProcessNodeRefs) (th : ThreadSt) :
    (requestDeath false handle cookie owner_dead refs th).thread.return_work =
      some BR_ERROR ∧
    (requestDeath false handle cookie owner_dead refs th).res = .error .ENOMEM ∧
    (requestDeath false handle cookie owner_dead refs th).refs = refs := by
  simp [requestDeath, pushReturnWork]

/-- One step of a oneway run preserves the invariant, and the
concatenation of the promoted work with the still-queued transactions
grows exactly by the submitted transaction (if any). -/
theorem onewayStep_fifo (p : OnewayProc) (e : OnewayEvent) (h : onewayInv p) :
    onewayInv (onewayStep p e) ∧
    (onewayStep p e).work ++ (onewayStep p e).node.oneway_todo =
      p.work ++ p.node.oneway_todo ++
        (match e with | .submit t => [t] | .finish => []) := by
  obtain ⟨hd, hf, hc⟩ := h
  cases e with
  | submit t =>
    by_cases hp : p.node.has_pending_oneway_todo = true
    · simp [onewayStep, submitOneway, hp, onewayInv, hd, hc]
    · simp only [Bool.not_eq_true] at hp
      simp [onewayStep, submitOneway, pushWork, hp, hd, onewayInv, hc, hf hp]
  | finish =>
    rcases htodo : p.node.oneway_todo with _ | ⟨t, rest⟩
    · simp [onewayStep, pendingOnewayFinished, hd, htodo, onewayInv, hc]
    · simp [onewayStep, pendingOnewayFinished, hd, htodo, onewayInv, hc]

/-- Folding a oneway run from a state satisfying the invariant. -/
theorem onewayRun_fifo_aux (evs : List OnewayEvent) (p : OnewayProc)
    (h : onewayInv p) :
    onewayInv (evs.foldl onewayStep p) ∧
    (evs.foldl onewayStep p).work ++ (evs.foldl onewayStep p).node.oneway_todo =
      p.work ++ p.node.oneway_todo ++ submittedOf evs := by
  induction evs generalizing p with
  | nil => simpa [submittedOf] using h
  | cons e evs ih =>
    obtain ⟨h1, h2⟩ := onewayStep_fifo p e h
    obtain ⟨h3, h4⟩ := ih (onewayStep p e) h1
    refine ⟨h3, ?_⟩
    rw [List.foldl_cons] at *
    rw [h4, h2]
    cases e <;> simp [submittedOf]

/-- C3: oneway transactions on one node are delivered in submission
order.  (i) In every run of submissions and buffer-frees against a live
owner, the transactions promoted to the owner process (in order),
followed by the transactions still queued on the node, are exactly the
submitted transactions in submission order, and none is cancelled —
so promotion (hence delivery) order equals submission order.
(ii) `submit_oneway` appends to the node queue when
`has_pending_oneway_todo` is set, and otherwise sets the flag and pushes
the transaction to the (live) owner process.  (iii) On a live owner,
`pending_oneway_finished` promotes exactly the head of the node queue
(clearing the flag when the queue is empty); on a dead owner it drains
the queue, cancelling every queued transaction and promoting none. -/
theorem claim_C3 :
    (∀ evs : List OnewayEvent,
      (onewayRun evs).work ++ (onewayRun evs).node.oneway_todo = submittedOf evs ∧
      (onewayRun evs).cancelled = []) ∧
    (∀ (t : Nat) (p : OnewayProc),
      (p.node.has_pending_oneway_todo = true →
        submitOneway t p =
          ({ p with node := { p.node with oneway_todo := p.node.oneway_todo ++ [t] } },
           .ok ())) ∧
      (p.node.has_pending_oneway_todo = false → p.is_dead = false →
        submitOneway t p =
          ({ p with
             work := p.work ++ [t]
             node := { p.node with has_pending_oneway_todo := true } },
           .ok ()))) ∧
    (∀ p : OnewayProc, p.is_dead = false →
      (p.node.oneway_todo = [] →
        pendingOnewayFinished p =
          { p with node := { p.node with has_pending_oneway_todo := false } }) ∧
      (∀ t rest, p.node.oneway_todo = t :: rest →
        pendingOnewayFinished p =
          { p with
            work := p.work ++ [t]
            node := { p.node with
                      oneway_todo := rest
                      has_pending_oneway_todo := true } })) ∧
    (∀ p : OnewayProc, p.is_dead = true →
      pendingOnewayFinished p =
        { p with
          node := { p.node with oneway_todo := [], has_pending_oneway_todo := false }
          cancelled := p.cancelled ++ p.node.oneway_todo }) := by
  refine ⟨?_, ?_, ?_, ?_⟩
  · intro evs
    have h0 : onewayInv OnewayProc.init := by
      refine ⟨rfl, fun _ => rfl, rfl⟩
    obtain ⟨⟨_, _, hc⟩, hw⟩ := onewayRun_fifo_aux evs OnewayProc.init h0
    exact ⟨by simpa [OnewayProc.init] using hw, hc⟩
  · intro t p
    constructor
    · intro hp
      simp [submitOneway, hp]
    · intro hp hd
      simp [submitOneway, pushWork, hp, hd]
  · intro p hd
    constructor
    · intro ht
      simp [pendingOnewayFinished, hd, ht]
    · intro t rest ht
      simp [pendingOnewayFinished, hd, ht]
  · intro p hd
    simp [pendingOnewayFinished, hd]

/-- Witness for C3 at concrete inputs: a run submitting 10, 20, 30 with
interleaved buffer-frees promotes them in order; a dead owner's
`pending_oneway_finished` cancels the queued transactions. -/
theorem claim_C3_witness :
    ((onewayRun [.submit 10, .submit 20, .finish, .submit 30, .finish, .finish]).work ++
      (onewayRun [.submit 10, .submit 20, .finish, .submit 30, .finish,
        .finish]).node.oneway_todo =
      submittedOf [.submit 10, .submit 20, .finish, .submit 30, .finish, .finish] ∧
      (onewayRun [.submit 10, .submit 20, .finish, .submit 30, .finish,
        .finish]).cancelled = []) ∧
    pendingOnewayFinished
        { is_dead := true, work := [5],
          node := { NodeInner.new with
                    oneway_todo := [6, 7]
                    has_pending_oneway_todo := true }
          cancelled := [] } =
      { is_dead := true, work := [5],
        node := { NodeInner.new with
                  oneway_todo := []
                  has_pending_oneway_todo := false }
        cancelled := [6, 7] } :=
  ⟨claim_C3.1 [.submit 10, .submit 20, .finish, .submit 30, .finish, .finish],
   by
    have h := claim_C3.2.2.2
      { is_dead := true, work := [5],
        node := { NodeInner.new with
                  oneway_todo := [6, 7]
                  has_pending_oneway_todo := true }
        cancelled := [] } rfl
    simpa using h⟩

/-- A successful `find_target_thread` walk returns the thread of a frame
on the `stack_next` chain whose originating process is the recipient. -/
theorem findTargetThreadAux_some (to_proc : Nat) (l : List TxnFrame) (tid : Nat)
    (h : findTargetThreadAux to_proc l = some tid) :
    ∃ f ∈ l, f.from_proc = to_proc ∧ f.from_thread = tid := by
  induction l with
  | nil => simp [findTargetThreadAux] at h
  | cons f fs ih =>
    by_cases hf : f.from_proc = to_proc
    · simp only [findTargetThreadAux, hf, if_true, Option.some.injEq] at h
      exact ⟨f, by simp, hf, h⟩
    · simp only [findTargetThreadAux, hf, if_false] at h
      obtain ⟨g, hg, hp, ht⟩ := ih h
      exact ⟨g, by simp [hg], hp, ht⟩

/-- C6: routing of `Transaction::submit` for a transaction with a target
node.  Oneway transactions are delegated to the target node's oneway
submission.  Otherwise, if the walk over the sender's `stack_next` chain
finds a frame whose originating thread belongs to the recipient process,
the transaction is pushed onto that thread (thread donation); with no
such frame it is handed to the first ready thread of the recipient when
one exists, and pushed onto the recipient process's work queue when
not. -/
theorem claim_C6 (t : Txn) (ready : List Nat) (to_dead : Bool) (gid : Nat)
    (htarget : t.target_node = some gid) :
    (t.oneway = true → txnSubmit t ready to_dead = .ok (.onewayNode gid)) ∧
    (t.oneway = false →
      (∀ tid, findTargetThread t = some tid →
        txnSubmit t ready to_dead = .ok (.donatedThread tid) ∧
        ∃ f ∈ t.stack_next, f.from_proc = t.to_proc ∧ f.from_thread = tid) ∧
      (findTargetThread t = none → ∀ tid rest, ready = tid :: rest →
        txnSubmit t ready to_dead = .ok (.readyThread tid)) ∧
      (findTargetThread t = none → ready = [] → to_dead = false →
        txnSubmit t ready to_dead = .ok .procQueue)) := by
  refine ⟨?_, ?_⟩
  · intro h1
    simp [txnSubmit, h1, htarget]
  · intro h1
    refine ⟨?_, ?_, ?_⟩
    · intro tid hfind
      refine ⟨?_, findTargetThreadAux_some t.to_proc t.stack_next tid hfind⟩
      simp [txnSubmit, txnSubmitSync, h1, hfind]
    · intro hfind tid rest hready
      simp [txnSubmit, txnSubmitSync, h1, hfind, hready]
    · intro hfind hready hdead
      simp [txnSubmit, txnSubmitSync, h1, hfind, hready, hdead]

/-- Witness for C6 at concrete inputs: the non-oneway transaction is
donated to thread 4; the oneway one is delegated to its node. -/
theorem claim_C6_witness :
    txnSubmit c6DonateTxn [5] false = .ok (.donatedThread 4) ∧
    txnSubmit c6OnewayTxn [] false = .ok (.onewayNode 11) :=
  ⟨((claim_C6 c6DonateTxn [5] false 11 rfl).2 (by decide)).1 4 rfl |>.1,
   (claim_C6 c6OnewayTxn [] false 11 rfl).1 (by decide)⟩

/-- The handle-allocation scan fails only with the no-memory error. -/
theorem findHandle_error_enomem (ks : List Nat) (t : Nat) (e : Errno)
    (h : findHandle ks t = .error e) : e = Errno.ENOMEM := by
  induction ks generalizing t with
  | nil => simp [findHandle] at h
  | cons k ks ih =>
    by_cases h1 : k > t
    · simp [findHandle, h1] at h
    · by_cases h2 : k = t
      · by_cases h3 : t = u32Max
        · simp [findHandle, h1, h2, h3] at h
          exact h.symm
        · simp only [findHandle, if_neg h1, if_pos h2, if_neg h3] at h
          exact ih _ h
      · simp only [findHandle, if_neg h1, if_neg h2] at h
        exact ih _ h

/-- Characterization of the handle-allocation scan: over a strictly
ascending key list, a successful scan returns the least unused id at
least `t` (and at most `u32::MAX`), and the scan fails exactly when
every id in `[t, u32::MAX]` is already used. -/
theorem findHandle_spec (ks : List Nat) (t : Nat) (hs : ks.Pairwise (· < ·))
    (hle : t ≤ u32Max) :
    (∀ r, findHandle ks t = .ok r →
      t ≤ r ∧ r ≤ u32Max ∧ r ∉ ks ∧ ∀ m, t ≤ m → m < r → m ∈ ks) ∧
    (findHandle ks t = .error .ENOMEM ↔ ∀ m, t ≤ m → m ≤ u32Max → m ∈ ks) := by
  induction ks generalizing t with
  | nil =>
    constructor
    · intro r h
      simp only [findHandle, Except.ok.injEq] at h
      subst h
      exact ⟨le_rfl, hle, by simp, fun m h1 h2 => absurd h1 (by omega)⟩
    · constructor
      · intro h
        simp [findHandle] at h
      · intro h
        exact absurd (h t le_rfl hle) (by simp)
  | cons k ks ih =>
    obtain ⟨hk, hks⟩ := List.pairwise_cons.mp hs
    by_cases h1 : k > t
    · constructor
      · intro r h
        simp only [findHandle, h1, if_true, Except.ok.injEq] at h
        subst h
        refine ⟨le_rfl, hle, ?_, fun m hm1 hm2 => absurd hm1 (by omega)⟩
        simp only [List.mem_cons, not_or]
        exact ⟨by omega, fun hmem => absurd (hk t hmem) (by omega)⟩
      · constructor
        · intro h
          simp [findHandle, h1] at h
        · intro h
          have := h t le_rfl hle
          simp only [List.mem_cons] at this
          rcases this with h' | h'
          · omega
          · exact absurd (hk t h') (by omega)
    · by_cases h2 : k = t
      · subst h2
        by_cases h3 : k = u32Max
        · constructor
          · intro r h
            simp [findHandle, h1, h3] at h
          · constructor
            · intro _ m hm1 hm2
              have : m = k := by omega
              simp [this]
            · intro _
              simp [findHandle, h1, h3]
        · have hrec := ih (k + 1) hks (by omega)
          constructor
          · intro r h
            simp only [findHandle, h1, if_false, if_true, h3, if_neg h3,
              lt_irrefl] at h
            obtain ⟨ha, hb, hc, hd⟩ := hrec.1 r (by simpa using h)
            refine ⟨by omega, hb, ?_, ?_⟩
            · simp only [List.mem_cons, not_or]
              exact ⟨by omega, hc⟩
            · intro m hm1 hm2
              rcases Nat.eq_or_lt_of_le hm1 with hm | hm
              · simp [← hm]
              · exact List.mem_cons_of_mem _ (hd m (by omega) hm2)
          · have lhs_eq : findHandle (k :: ks) k = findHandle ks (k + 1) := by
              simp [findHandle, h1, h3]
            rw [lhs_eq, hrec.2]
            constructor
            · intro h m hm1 hm2
              rcases Nat.eq_or_lt_of_le hm1 with hm | hm
              · simp [← hm]
              · exact List.mem_cons_of_mem _ (h m (by omega) hm2)
            · intro h m hm1 hm2
              have := h m (by omega) hm2
              simp only [List.mem_cons] at this
              rcases this with h' | h'
              · omega
              · exact h'
      · have h4 : k < t := by omega
        have hrec := ih t hks hle
        have lhs_eq : findHandle (k :: ks) t = findHandle ks t := by
          simp only [findHandle, h1, if_false]
          rw [if_neg (by omega)]
        constructor
        · intro r h
          rw [lhs_eq] at h
          obtain ⟨ha, hb, hc, hd⟩ := hrec.1 r h
          refine ⟨ha, hb, ?_, fun m hm1 hm2 => List.mem_cons_of_mem _ (hd m hm1 hm2)⟩
          simp only [List.mem_cons, not_or]
          exact ⟨by omega, hc⟩
        · rw [lhs_eq, hrec.2]
          constructor
          · intro h m hm1 hm2
            exact List.mem_cons_of_mem _ (h m hm1 hm2)
          · intro h m hm1 hm2
            have := h m hm1 hm2
            simp only [List.mem_cons] at this
            rcases this with h' | h'
            · omega
            · exact h'

/-- Looking up the updated key after `updateByHandle` yields the mapped
entry. -/
theorem updateByHandle_lookup (h : Nat) (f : NodeRefInfo → NodeRefInfo)
    (l : List (Nat × NodeRefInfo)) :
    (updateByHandle h f l).lookup h = (l.lookup h).map f := by
  induction l with
  | nil => simp [updateByHandle]
  | cons kv rest ih =>
    obtain ⟨k, v⟩ := kv
    by_cases hk : k = h
    · subst hk
      simp [updateByHandle, List.lookup]
    · have : (h == k) = false := by simp [Ne.symm hk]
      simp [updateByHandle, hk, List.lookup, this, ih]

/-- Looking up the inserted key after `insertSorted` yields the inserted
value. -/
theorem insertSorted_lookup (k : Nat) (v : NodeRefInfo)
    (l : List (Nat × NodeRefInfo)) :
    (insertSorted k v l).lookup k = some v := by
  induction l with
  | nil => simp [insertSorted, List.lookup]
  | cons kv rest ih =>
    obtain ⟨k', v'⟩ := kv
    by_cases h1 : k < k'
    · simp [insertSorted, h1, List.lookup]
    · by_cases h2 : k = k'
      · simp [insertSorted, h1, h2, List.lookup]
      · have : (k == k') = false := by simp [h2]
        simp [insertSorted, h1, h2, List.lookup, this, ih]

/-- C7: `Process::insert_or_update_handle` on a non-manager import.
(i) When the node's `global_id` is already in the table, the existing
handle is returned and the new `NodeRef`'s counters are absorbed into
the existing entry.  (ii) Otherwise (process alive) the allocated handle
is the lowest unused id at least 1, and the entry is installed in both
tables.  (iii) The allocation fails with the no-memory error exactly
when every id in `[1, u32::MAX]` (2^32 − 1 handles) is already used. -/
theorem claim_C7 (nr : NodeRefM) (is_dead : Bool) (refs : ProcessNodeRefs)
    (hs : (refs.by_handle.map Prod.fst).Pairwise (· < ·)) :
    (∀ h info, refs.by_global_id.lookup nr.gid = some h →
       refs.by_handle.lookup h = some info →
       (insertOrUpdateHandle nr false is_dead refs).2 = .ok h ∧
       (insertOrUpdateHandle nr false is_dead refs).1.by_handle.lookup h =
         some { info with node_ref := info.node_ref.absorb nr }) ∧
    (refs.by_global_id.lookup nr.gid = none → is_dead = false →
       ∀ r, (insertOrUpdateHandle nr false is_dead refs).2 = .ok r →
         1 ≤ r ∧ r ∉ refs.by_handle.map Prod.fst ∧
         (∀ m, 1 ≤ m → m < r → m ∈ refs.by_handle.map Prod.fst) ∧
         (insertOrUpdateHandle nr false is_dead refs).1.by_handle.lookup r =
           some { node_ref := nr, death := none } ∧
         (insertOrUpdateHandle nr false is_dead refs).1.by_global_id.lookup nr.gid =
           some r) ∧
    (refs.by_global_id.lookup nr.gid = none →
       ((insertOrUpdateHandle nr false is_dead refs).2 = .error .ENOMEM ↔
         ∀ m, 1 ≤ m → m ≤ u32Max → m ∈ refs.by_handle.map Prod.fst)) := by
  have hmax : (1 : Nat) ≤ u32Max := by
    simp [u32Max]
  have hspec := findHandle_spec (refs.by_handle.map Prod.fst) 1 hs hmax
  refine ⟨?_, ?_, ?_⟩
  · intro h info hgid hinfo
    constructor
    · simp [insertOrUpdateHandle, hgid]
    · simp [insertOrUpdateHandle, hgid, updateByHandle_lookup, hinfo]
  · intro hgid hdead r hr
    rcases hf : findHandle (refs.by_handle.map Prod.fst) 1 with e | target
    · simp [insertOrUpdateHandle, hgid, hf] at hr
    · have hre : r = target := by
        simp [insertOrUpdateHandle, hgid, hf, hdead] at hr
        exact hr.symm
      subst hre
      obtain ⟨ha, hb, hc, hd⟩ := hspec.1 r hf
      refine ⟨ha, hc, hd, ?_, ?_⟩
      · simp [insertOrUpdateHandle, hgid, hf, hdead, insertSorted_lookup]
      · simp [insertOrUpdateHandle, hgid, hf, hdead, List.lookup]
  · intro hgid
    rcases hf : findHandle (refs.by_handle.map Prod.fst) 1 with e | target
    · have he : e = Errno.ENOMEM := findHandle_error_enomem _ _ _ hf
      subst he
      have hrhs := hspec.2.mp hf
      constructor
      · intro _
        exact hrhs
      · intro _
        simp [insertOrUpdateHandle, hgid, hf]
    · obtain ⟨ha, hb, hc, hd⟩ := hspec.1 target hf
      constructor
      · intro h
        rcases hdead : is_dead with _ | _ <;>
          simp [insertOrUpdateHandle, hgid, hf, hdead] at h
      · intro h
        exact absurd (h target ha hb) hc

/-- Witness for C7 at concrete inputs: importing a fresh node into a
table using handles 1 and 2 allocates handle 3 and installs the entry. -/
theorem claim_C7_witness :
    1 ≤ 3 ∧ 3 ∉ c7Refs.by_handle.map Prod.fst ∧
    (∀ m, 1 ≤ m → m < 3 → m ∈ c7Refs.by_handle.map Prod.fst) ∧
    (insertOrUpdateHandle c7NR false false c7Refs).1.by_handle.lookup 3 =
      some { node_ref := c7NR, death := none } ∧
    (insertOrUpdateHandle c7NR false false c7Refs).1.by_global_id.lookup c7NR.gid =
      some 3 :=
  (claim_C7 c7NR false c7Refs (by decide)).2.1 rfl rfl 3 rfl

/-- When handle 0 is unused, the manager-import scan allocates
handle 0. -/
theorem findHandle_zero (ks : List Nat) (h : (0 : Nat) ∉ ks) :
    findHandle ks 0 = .ok 0 := by
  cases ks with
  | nil => rfl
  | cons k ks' =>
    have hne : k ≠ 0 := fun hk => h (by simp [hk])
    have hk : k > 0 := Nat.pos_of_ne_zero hne
    simp [findHandle, hk]

/-- C10: `Process::update_ref(0, inc = true)` with a manager node
installed.  If the caller itself owns the manager node, the call fails
with `EINVAL` and leaves the caller's handle tables unchanged.  If the
caller does not own the manager node (process alive, manager not yet
imported, handle 0 unused), the call succeeds and imports the manager
under handle 0.  `hclone` states the stored manager `NodeRef` supports a
strong clone (its strong count is nonzero whenever `strong` is
requested), which holds for the ref installed by `set_manager_node`. -/
theorem claim_C10 (self : Nat) (nr : NodeRefM) (strong : Bool) (is_dead : Bool)
    (refs : ProcessNodeRefs)
    (hclone : strong = true → nr.strong_count ≠ 0) :
    (nr.owner = self →
      updateRef self (some nr) 0 true strong is_dead refs = (refs, .error .EINVAL)) ∧
    (nr.owner ≠ self → is_dead = false →
      refs.by_global_id.lookup nr.gid = none →
      (0 : Nat) ∉ refs.by_handle.map Prod.fst →
      (updateRef self (some nr) 0 true strong is_dead refs).2 = .ok () ∧
      (updateRef self (some nr) 0 true strong is_dead refs).1.by_handle.lookup 0 =
        some { node_ref := NodeRefM.new nr.gid nr.owner (if strong then 1 else 0)
                  (1 - if strong then 1 else 0)
               death := none } ∧
      (updateRef self (some nr) 0 true strong is_dead refs).1.by_global_id.lookup
        nr.gid = some 0) := by
  have hc : getManagerNode (some nr) strong =
      .ok (NodeRefM.new nr.gid nr.owner (if strong then 1 else 0)
        (1 - if strong then 1 else 0)) := by
    cases strong with
    | false => simp [getManagerNode, NodeRefM.clone]
    | true => simp [getManagerNode, NodeRefM.clone, hclone rfl]
  constructor
  · intro howner
    simp [updateRef, hc, NodeRefM.new, howner]
  · intro howner hdead hgid hzero
    have hfz := findHandle_zero _ hzero
    refine ⟨?_, ?_, ?_⟩ <;>
      simp [updateRef, hc, NodeRefM.new, howner, insertOrUpdateHandle, hgid, hfz,
        hdead, insertSorted_lookup, List.lookup]

/-- Witness for C10 at concrete inputs: process 1 (the manager's owner)
incrementing handle 0 gets `EINVAL` with its (empty) tables unchanged;
process 2 doing the same imports the manager under handle 0. -/
theorem claim_C10_witness :
    updateRef 1 (some c10Manager) 0 true true false ProcessNodeRefs.empty =
      (ProcessNodeRefs.empty, .error .EINVAL) ∧
    (updateRef 2 (some c10Manager) 0 true true false ProcessNodeRefs.empty).2 =
      .ok () ∧
    (updateRef 2 (some c10Manager) 0 true true false
        ProcessNodeRefs.empty).1.by_handle.lookup 0 =
      some { node_ref := NodeRefM.new 50 1 1 0, death := none } :=
  ⟨(claim_C10 1 c10Manager true false ProcessNodeRefs.empty
      (fun _ => by decide)).1 rfl,
   ((claim_C10 2 c10Manager true false ProcessNodeRefs.empty
      (fun _ => by decide)).2 (by decide) rfl rfl (by decide)).1,
   by
    have h := ((claim_C10 2 c10Manager true false ProcessNodeRefs.empty
      (fun _ => by decide)).2 (by decide) rfl rfl (by decide)).2.1
    simpa [c10Manager, NodeRefM.new] using h⟩

end Binder
